import Mathlib

/-!
Verification of the Soleus A/C IR protocol module (ir_Soleus.cpp / ir_Soleus.h).

The development shallowly embeds the state codec (the `IRSoleusAc` class:
an 11-byte buffer with bit-fields, setters with button bookkeeping, and a
trailing-byte checksum) and the pulse-timing codec (`IRsend::sendSoleus` /
`IRrecv::decodeSoleus`).  Machine bytes (`uint8_t`) are modelled as `Nat`
values; every store into a byte truncates modulo 2^8, every read of a byte
field reads modulo 2^8, matching C `uint8_t` semantics.

The generic helper layer (`sendGeneric`, `matchGeneric`, `sumBytes`,
`setBits`/`setBit`/`GETBITS8`/`GETBIT8`, and the shared constants
`kDefaultMessageGap`, `kTolerance`, `kSoleusStateLength`, `kSoleusBits`)
lives outside this module's sources, so those are modelled from the
specification's description of the serializer/matcher conventions; each such
definition carries a doc comment starting with `Modelled from the spec:`.
-/

namespace Soleus

/-! ## Protocol constants (from ir_Soleus.cpp lines 18-24 and ir_Soleus.h) -/

def kSoleusHdrMark : Nat := 6112
def kSoleusHdrSpace : Nat := 7391
def kSoleusBitMark : Nat := 537
def kSoleusOneSpace : Nat := 1651
def kSoleusZeroSpace : Nat := 571

/-- Modelled from the spec: the "minimum inter-message gap" is a
protocol-independent default gap constant (`kDefaultMessageGap`, defined
outside this module); its concrete microsecond value is not fixed by the
spec, and the library default of 100000 us is used here. -/
def kDefaultMessageGap : Nat := 100000

def kSoleusMinGap : Nat := kDefaultMessageGap

/-- Modelled from the spec: the protocol state length is 11 bytes
(`kSoleusStateLength` is declared outside this module). -/
def kSoleusStateLength : Nat := 11

/-- Modelled from the spec: the protocol's defined bit count is 88
(`kSoleusBits` is declared outside this module). -/
def kSoleusBits : Nat := 88

/-- Modelled from the spec: timing comparisons use a uniform percentage
tolerance band (`_tolerance`/`kTolerance`, defined outside this module);
the library default of 25 percent is used here. -/
def kTolerance : Nat := 25

/-! ## Bit-field layout constants (from ir_Soleus.h lines 27-82) -/

def kSoleus8CHeatOffset : Nat := 1
def kSoleusIonOffset : Nat := 2
def kSoleusLightOffset : Nat := 0
def kSoleusHoldOffset : Nat := 2
def kSoleusTurboOffset : Nat := 3
def kSoleusEyeOffset : Nat := 6
def kSoleusFreshOffset : Nat := 7
def kSoleusButtonOffset : Nat := 0
def kSoleusButtonSize : Nat := 5
def kSoleusButtonPower : Nat := 0x00
def kSoleusButtonMode : Nat := 0x01
def kSoleusButtonTempUp : Nat := 0x02
def kSoleusButtonTempDown : Nat := 0x03
def kSoleusButtonSwing : Nat := 0x04
def kSoleusButtonFanSpeed : Nat := 0x05
def kSoleusButtonAirFlow : Nat := 0x07
def kSoleusButtonHold : Nat := 0x08
def kSoleusButtonSleep : Nat := 0x09
def kSoleusButtonTurbo : Nat := 0x0A
def kSoleusButtonLight : Nat := 0x0B
def kSoleusButtonEye : Nat := 0x0E
def kSoleusButtonFollow : Nat := 0x13
def kSoleusButtonIon : Nat := 0x14
def kSoleusButtonFresh : Nat := 0x15
def kSoleusButton8CHeat : Nat := 0x1D
def kSoleusSleepOffset : Nat := 0
def kSoleusPowerOffset : Nat := 1
def kSoleusSwingVOffset : Nat := 2
def kSoleusSwingVSize : Nat := 2
def kSoleusSwingVOn : Nat := 0b01
def kSoleusSwingVOff : Nat := 0b10
def kSoleusSwingHOffset : Nat := 4
def kSoleusFanOffest : Nat := 5
def kSoleusFanSize : Nat := 2
def kSoleusFanAuto : Nat := 0b00
def kSoleusFanHigh : Nat := 0b01
def kSoleusFanMed : Nat := 0b10
def kSoleusFanLow : Nat := 0b11
def kSoleusFollowMe : Nat := 0x5D
def kSoleusTempOffset : Nat := 0
def kSoleusTempSize : Nat := 5
def kSoleusMinTemp : Nat := 16
def kSoleusMaxTemp : Nat := 32
def kSoleusModeOffset : Nat := 5
def kModeBitsSize : Nat := 3
def kSoleusAuto : Nat := 0b000
def kSoleusCool : Nat := 0b001
def kSoleusDry : Nat := 0b010
def kSoleusFan : Nat := 0b011
def kSoleusHeat : Nat := 0b100

/-! ## Generic byte/bit utilities -/

/-- Modelled from the spec: the generic bit-field writer
(`irutils::setBits`, defined outside this module) overwrites the `sz`-bit
field starting at bit `off` of the byte `b` with the low `sz` bits of `v`,
leaving the other bits of the byte untouched; the result is an 8-bit byte. -/
def setBits (b off sz v : Nat) : Nat :=
  ((b % 2 ^ 8) &&& ((2 ^ 8 - 1) ^^^ ((2 ^ sz - 1) <<< off))) |||
    ((v &&& (2 ^ sz - 1)) <<< off)

/-- Modelled from the spec: the generic single-bit writer
(`irutils::setBit`, defined outside this module) sets or clears bit `off`
of the byte `b`; the result is an 8-bit byte. -/
def setBit (b off : Nat) (v : Bool) : Nat :=
  if v then (b % 2 ^ 8) ||| (1 <<< off)
  else (b % 2 ^ 8) &&& ((2 ^ 8 - 1) ^^^ (1 <<< off))

/-- Modelled from the spec: the generic bit-field reader (`GETBITS8`,
defined outside this module) extracts the `sz`-bit field starting at bit
`off` of the byte `b`. -/
def GETBITS8 (b off sz : Nat) : Nat :=
  ((b % 2 ^ 8) >>> off) &&& (2 ^ sz - 1)

/-- Modelled from the spec: the generic single-bit reader (`GETBIT8`,
defined outside this module) tests bit `off` of the byte `b`. -/
def GETBIT8 (b off : Nat) : Bool :=
  (b % 2 ^ 8).testBit off

/-- Modelled from the spec: `sumBytes` (defined outside this module) sums
the first `length` bytes of a state array, truncated to 8 bits. -/
def sumBytes (state : List Nat) (length : Nat) : Nat :=
  ((state.take length).map (· % 256)).sum % 256

/-! ## The IRSoleusAc state -/

/-- The `remote_state[kSoleusStateLength]` byte array of `IRSoleusAc`,
one field per byte. -/
structure SoleusState where
  b0 : Nat
  b1 : Nat
  b2 : Nat
  b3 : Nat
  b4 : Nat
  b5 : Nat
  b6 : Nat
  b7 : Nat
  b8 : Nat
  b9 : Nat
  b10 : Nat
deriving DecidableEq, Repr

/-- View of the state as the 11-byte array. -/
def stateList (s : SoleusState) : List Nat :=
  [s.b0, s.b1, s.b2, s.b3, s.b4, s.b5, s.b6, s.b7, s.b8, s.b9, s.b10]

/-- `IRSoleusAc::stateReset` (ir_Soleus.cpp lines 71-75): the canonical
reset byte pattern. -/
def stateResetState : SoleusState :=
  ⟨0x00, 0x00, 0x00, 0x00, 0x00, 0x00, 0x00, 0x6A, 0x00, 0x2A, 0xA5⟩

/-- `IRSoleusAc::calcChecksum` (ir_Soleus.cpp lines 84-88). -/
def calcChecksum (state : List Nat) (length : Nat) : Nat :=
  if length = 0 then state.getD 0 0 % 256
  else sumBytes state (length - 1)

/-- `IRSoleusAc::validChecksum` (ir_Soleus.cpp lines 94-98). -/
def validChecksum (state : List Nat) (length : Nat) : Bool :=
  if length < 2 then true
  else decide (state.getD (length - 1) 0 % 256 = calcChecksum state length)

/-- `IRSoleusAc::checksum` (ir_Soleus.cpp lines 102-105) at its (only
used) default length `kSoleusStateLength = 11`: write the checksum of the
first ten bytes into the last byte. -/
def checksumS (s : SoleusState) : SoleusState :=
  { s with b10 := calcChecksum (stateList s) kSoleusStateLength }

/-- `IRSoleusAc::getRaw` (ir_Soleus.cpp lines 117-120): recompute the
checksum byte, then hand out the byte array. -/
def getRaw (s : SoleusState) : List Nat :=
  stateList (checksumS s)

/-- The sixteen recognized button codes of the `IRSoleusAc::setButton`
switch (ir_Soleus.cpp lines 132-148). -/
def soleusButtons : List Nat :=
  [kSoleusButtonPower, kSoleusButtonMode, kSoleusButtonTempUp,
   kSoleusButtonTempDown, kSoleusButtonSwing, kSoleusButtonFanSpeed,
   kSoleusButtonAirFlow, kSoleusButtonHold, kSoleusButtonSleep,
   kSoleusButtonLight, kSoleusButtonEye, kSoleusButtonFollow,
   kSoleusButtonIon, kSoleusButtonFresh, kSoleusButton8CHeat,
   kSoleusButtonTurbo]

/-- `IRSoleusAc::setButton` (ir_Soleus.cpp lines 131-155).  The `default`
arm's recursive call `setButton(kSoleusButtonPower)` is unfolded: `Power`
is a recognized code, so the recursion just stores it. -/
def setButton (s : SoleusState) (button : Nat) : SoleusState :=
  if button ∈ soleusButtons then
    { s with b5 := setBits s.b5 kSoleusButtonOffset kSoleusButtonSize button }
  else
    { s with b5 := setBits s.b5 kSoleusButtonOffset kSoleusButtonSize
                     kSoleusButtonPower }

/-- `IRSoleusAc::getButton` (ir_Soleus.cpp lines 159-161). -/
def getButton (s : SoleusState) : Nat :=
  GETBITS8 s.b5 kSoleusButtonOffset kSoleusButtonSize

/-- `IRSoleusAc::getMode` (ir_Soleus.cpp lines 205-207). -/
def getMode (s : SoleusState) : Nat :=
  GETBITS8 s.b9 kSoleusModeOffset kModeBitsSize

/-- `IRSoleusAc::getFan` (ir_Soleus.cpp lines 280-282). -/
def getFan (s : SoleusState) : Nat :=
  GETBITS8 s.b7 kSoleusFanOffest kSoleusFanSize

/-- The store half of `IRSoleusAc::setFan`'s recognized-speed path
(ir_Soleus.cpp lines 268-271): write the fan bits, then record the
fan-speed button. -/
def setFanStore (s : SoleusState) (speed : Nat) : SoleusState :=
  setButton { s with b7 := setBits s.b7 kSoleusFanOffest kSoleusFanSize speed }
    kSoleusButtonFanSpeed

/-- `IRSoleusAc::setFan` (ir_Soleus.cpp lines 258-276).  The two
self-calls are unfolded: `setFan(kSoleusFanLow)` lands on the `FanLow`
case and stores low; the `default` arm's `setFan(kSoleusFanAuto)` lands on
the `FanAuto` case, which redirects to low in dry mode and otherwise
stores auto. -/
def setFan (s : SoleusState) (speed : Nat) : SoleusState :=
  if speed = kSoleusFanAuto ∨ speed = kSoleusFanHigh ∨ speed = kSoleusFanMed then
    if getMode s = kSoleusDry then
      -- Dry mode only allows low speed.
      setFanStore s kSoleusFanLow
    else
      setFanStore s speed
  else if speed = kSoleusFanLow then
    setFanStore s speed
  else
    -- If we get an unexpected speed, default to Auto.
    if getMode s = kSoleusDry then setFanStore s kSoleusFanLow
    else setFanStore s kSoleusFanAuto

/-- The store half of `IRSoleusAc::setMode`'s recognized-mode path
(ir_Soleus.cpp lines 194-196): write the mode bits, then record the mode
button. -/
def setModeStore (s : SoleusState) (mode : Nat) : SoleusState :=
  setButton { s with b9 := setBits s.b9 kSoleusModeOffset kModeBitsSize mode }
    kSoleusButtonMode

/-- `IRSoleusAc::setMode` (ir_Soleus.cpp lines 184-201).  The `Dry` case
first forces the fan low and falls through to the store; the `default`
arm's recursive `setMode(kSoleusAuto)` is unfolded: `Auto` is a
recognized mode, so the recursion just stores it. -/
def setMode (s : SoleusState) (mode : Nat) : SoleusState :=
  if mode = kSoleusDry then
    setModeStore (setFan s kSoleusFanLow) mode
  else if mode = kSoleusAuto ∨ mode = kSoleusCool ∨ mode = kSoleusFan ∨
      mode = kSoleusHeat then
    setModeStore s mode
  else
    -- If we get an unexpected mode, default to AUTO.
    setModeStore s kSoleusAuto

/-- `IRSoleusAc::getTemp` (ir_Soleus.cpp lines 251-254). -/
def getTemp (s : SoleusState) : Nat :=
  GETBITS8 s.b9 kSoleusTempOffset kSoleusTempSize + kSoleusMinTemp

/-- `IRSoleusAc::setTemp` (ir_Soleus.cpp lines 237-247). -/
def setTemp (s : SoleusState) (temp : Nat) : SoleusState :=
  let oldtemp := getTemp s
  let newtemp := min kSoleusMaxTemp (max kSoleusMinTemp temp)
  let s1 :=
    if oldtemp > newtemp then setButton s kSoleusButtonTempDown
    else if newtemp > oldtemp then setButton s kSoleusButtonTempUp
    else s
  { s1 with b9 := setBits s1.b9 kSoleusTempOffset kSoleusTempSize
                    (newtemp - kSoleusMinTemp) }

/-- `IRSoleusAc::getFollow` (ir_Soleus.cpp lines 459-461). -/
def getFollow (s : SoleusState) : Bool :=
  decide ((s.b8 % 2 ^ 8) &&& kSoleusFollowMe = kSoleusFollowMe)

/-! ## The pulse codec -/

/-- One timing unit of the IR signal: an infrared-on pulse (`mark`) or an
infrared-off gap (`space`), with its duration in microseconds. -/
inductive Pulse where
  | mark (usec : Nat)
  | space (usec : Nat)
deriving DecidableEq, Repr

/-- The most-significant-bit-first bit sequence of one byte. -/
def byteBits (b : Nat) : List Bool :=
  [b.testBit 7, b.testBit 6, b.testBit 5, b.testBit 4,
   b.testBit 3, b.testBit 2, b.testBit 1, b.testBit 0]

/-- Modelled from the spec: the generic serializer
(`IRsend::sendGeneric`, defined outside this module) emits a header mark
and header space, then each bit of each byte in most-significant-bit-first
order as a mark (`onemark`/`zeromark`) followed by a one-space or
zero-space, then a footer mark followed by the footer gap. -/
def sendGeneric (hdrmark hdrspace onemark onespace zeromark zerospace
    footermark gap : Nat) (data : List Nat) : List Pulse :=
  [Pulse.mark hdrmark, Pulse.space hdrspace] ++
  (data.flatMap fun b =>
    (byteBits b).flatMap fun bit =>
      [Pulse.mark (if bit then onemark else zeromark),
       Pulse.space (if bit then onespace else zerospace)]) ++
  [Pulse.mark footermark, Pulse.space gap]

/-- The two pulses of one Soleus data bit, as emitted by the generic
serializer instantiated with the Soleus timing constants. -/
def soleusBitPulses (bit : Bool) : List Pulse :=
  [Pulse.mark (if bit then kSoleusBitMark else kSoleusBitMark),
   Pulse.space (if bit then kSoleusOneSpace else kSoleusZeroSpace)]

/-- One full on-air Soleus message: the generic
header/data/footer stream (`IRsend::sendSoleus`, ir_Soleus.cpp lines
47-52) followed by the extra footer mark and minimum gap (lines 53-55). -/
def soleusMessage (data : List Nat) : List Pulse :=
  sendGeneric kSoleusHdrMark kSoleusHdrSpace
      kSoleusBitMark kSoleusOneSpace
      kSoleusBitMark kSoleusZeroSpace
      kSoleusBitMark kSoleusHdrSpace data ++
  [Pulse.mark kSoleusBitMark, Pulse.space kSoleusMinGap]

/-- `IRsend::sendSoleus` (ir_Soleus.cpp lines 41-57): the loop
`for (i = 0; i <= repeat; i++)` emits the message `repeat + 1` times. -/
def sendSoleus (data : List Nat) : Nat → List Pulse
  | 0 => soleusMessage data
  | r + 1 => sendSoleus data r ++ soleusMessage data

/-- Modelled from the spec: a timing comparison within the uniform
percentage tolerance band. -/
def matchTick (measured desired : Nat) : Bool :=
  decide (desired * (100 - kTolerance) ≤ measured * 100 ∧
          measured * 100 ≤ desired * (100 + kTolerance))

/-- Modelled from the spec: an at-least timing comparison, used for the
trailing gap, which only needs to be no shorter than the expected
low-period (within tolerance). -/
def matchAtLeast (measured desired : Nat) : Bool :=
  decide (desired * (100 - kTolerance) ≤ measured * 100)

/-- Modelled from the spec: one data bit of the matcher — a short mark
followed by a space whose duration picks a one or a zero within
tolerance; anything else is a hard failure. -/
def readBit : List Pulse → Option (Bool × List Pulse)
  | Pulse.mark m :: Pulse.space sp :: rest =>
    if matchTick m kSoleusBitMark then
      if matchTick sp kSoleusOneSpace then some (true, rest)
      else if matchTick sp kSoleusZeroSpace then some (false, rest)
      else none
    else none
  | _ => none

/-- Modelled from the spec: consume exactly `n` data bits. -/
def readBits : Nat → List Pulse → Option (List Bool × List Pulse)
  | 0, ps => some ([], ps)
  | n + 1, ps =>
    match readBit ps with
    | none => none
    | some (b, ps1) =>
      match readBits n ps1 with
      | none => none
      | some (bs, ps2) => some (b :: bs, ps2)

/-- The byte denoted by a most-significant-bit-first bit sequence. -/
def byteOfBits (bits : List Bool) : Nat :=
  bits.foldl (fun acc bit => 2 * acc + bit.toNat) 0

/-- Modelled from the spec: reassemble the decoded bit stream into bytes,
most significant bit of each byte first. -/
def bitsToBytes : List Bool → List Nat
  | a :: b :: c :: d :: e :: f :: g :: h :: rest =>
    byteOfBits [a, b, c, d, e, f, g, h] :: bitsToBytes rest
  | _ => []

/-- Modelled from the spec: the footer step of the generic matcher —
match the footer mark and the footer space (the header's long low-period)
within tolerance; any mismatch is a hard failure. -/
def readFooter : List Pulse → Option (List Pulse)
  | Pulse.mark fm :: Pulse.space fs :: ps2 =>
    if matchTick fm kSoleusBitMark && matchTick fs kSoleusHdrSpace then
      some ps2
    else none
  | _ => none

/-- Modelled from the spec: the generic matcher (`IRrecv::matchGeneric`,
defined outside this module) as called for the main Soleus
header + data + footer block: match the header mark and space within
tolerance, consume exactly `nbits` data bits, match the footer, and
return the reassembled bytes with the remaining pulses; any mismatch is a
hard failure. -/
def matchGenericSoleus : List Pulse → Nat → Option (List Nat × List Pulse)
  | Pulse.mark m :: Pulse.space sp :: rest, nbits =>
    if matchTick m kSoleusHdrMark && matchTick sp kSoleusHdrSpace then
      match readBits nbits rest with
      | none => none
      | some (bits, ps1) =>
        match readFooter ps1 with
        | none => none
        | some ps2 => some (bitsToBytes bits, ps2)
    else none
  | _, _ => none

/-- Modelled from the spec: the second `matchGeneric` call of
`decodeSoleus` (ir_Soleus.cpp lines 566-569) — zero data bits, just the
extra footer mark within tolerance and the trailing gap matched as
at-least the header's long low-period. -/
def matchExtraFooter (ps : List Pulse) : Bool :=
  match ps with
  | Pulse.mark m :: Pulse.space sp :: _ =>
    matchTick m kSoleusBitMark && matchAtLeast sp kSoleusHdrSpace
  | _ => false

/-- `IRrecv::decodeSoleus` (ir_Soleus.cpp lines 548-584): strict bit-count
compliance, main block match, extra footer match, and strict checksum
compliance; on success the decoded byte buffer. -/
def decodeSoleus (rawbuf : List Pulse) (offset nbits : Nat) (strict : Bool) :
    Option (List Nat) :=
  if strict ∧ nbits ≠ kSoleusBits then none
  else
    match matchGenericSoleus (rawbuf.drop offset) nbits with
    | none => none
    | some (state, ps1) =>
      if matchExtraFooter ps1 then
        if strict ∧ validChecksum state (nbits / 8) = false then none
        else some state
      else none

/-! ## Helper lemmas about the bit-field utilities -/

/-- Reading back the very field just written yields the low `sz` bits of
the written value. -/
lemma getBits_setBits (b off sz v : Nat) (h : off + sz ≤ 8) :
    GETBITS8 (setBits b off sz v) off sz = v &&& (2 ^ sz - 1) := by
  unfold GETBITS8 setBits
  apply Nat.eq_of_testBit_eq
  intro i
  rcases Nat.lt_or_ge i sz with hi | hi
  · have h8 : off + i < 8 := by omega
    have hoff : off ≤ off + i := Nat.le_add_right off i
    simp only [Nat.testBit_land, Nat.testBit_lor, Nat.testBit_xor,
      Nat.testBit_shiftLeft, Nat.testBit_shiftRight, Nat.testBit_mod_two_pow,
      Nat.testBit_two_pow_sub_one, Nat.add_sub_cancel_left, ge_iff_le]
    simp [h8, hi, hoff]
  · have h1 : ¬ i < sz := by omega
    simp only [Nat.testBit_land, Nat.testBit_lor, Nat.testBit_xor,
      Nat.testBit_shiftLeft, Nat.testBit_shiftRight, Nat.testBit_mod_two_pow,
      Nat.testBit_two_pow_sub_one, Nat.add_sub_cancel_left, ge_iff_le]
    simp [h1]

/-- `setButton` only writes the button byte. -/
lemma setButton_b7 (s : SoleusState) (c : Nat) :
    (setButton s c).b7 = s.b7 := by
  unfold setButton; split <;> rfl

/-- `setButton` only writes the button byte. -/
lemma setButton_b9 (s : SoleusState) (c : Nat) :
    (setButton s c).b9 = s.b9 := by
  unfold setButton; split <;> rfl

/-- Every recognized button code fits the 5-bit button field. -/
lemma button_lt (c : Nat) (hc : c ∈ soleusButtons) : c < 2 ^ 5 := by
  have h : ∀ x ∈ soleusButtons, x < 2 ^ 5 := by decide
  exact h c hc

/-- `setButton` with a recognized code stores exactly that code. -/
lemma getButton_setButton (s : SoleusState) (c : Nat)
    (hc : c ∈ soleusButtons) : getButton (setButton s c) = c := by
  unfold getButton setButton
  rw [if_pos hc]
  show GETBITS8 (setBits s.b5 kSoleusButtonOffset kSoleusButtonSize c) _ _ = c
  rw [getBits_setBits _ _ _ _ (by decide)]
  exact Nat.and_pow_two_sub_one_of_lt_two_pow (button_lt c hc)

/-- The fan field after the direct fan store. -/
lemma getFan_setFanStore (s : SoleusState) (v : Nat) :
    getFan (setFanStore s v) = v &&& (2 ^ 2 - 1) := by
  unfold getFan setFanStore
  rw [setButton_b7]
  exact getBits_setBits s.b7 kSoleusFanOffest kSoleusFanSize v (by decide)

/-- The mode field after the direct mode store. -/
lemma getMode_setModeStore (s : SoleusState) (m : Nat) :
    getMode (setModeStore s m) = m &&& (2 ^ 3 - 1) := by
  unfold getMode setModeStore
  rw [setButton_b9]
  exact getBits_setBits s.b9 kSoleusModeOffset kModeBitsSize m (by decide)

end Soleus

namespace Soleus

/-! ## Claim theorems: the state machine -/

/-- C2: for every state of the `IRSoleusAc` buffer, `getRaw()` writes the
8-bit truncated sum of bytes 0 through 9 into byte 10, so
`validChecksum(getRaw(), 11)` returns true. -/
theorem getRaw_writes_checksum_and_validates (s : SoleusState) :
    (getRaw s).getD 10 0 =
      (s.b0 % 256 + s.b1 % 256 + s.b2 % 256 + s.b3 % 256 + s.b4 % 256 +
       s.b5 % 256 + s.b6 % 256 + s.b7 % 256 + s.b8 % 256 + s.b9 % 256) % 256 ∧
    validChecksum (getRaw s) kSoleusStateLength = true := by
  constructor
  · simp only [getRaw, checksumS, calcChecksum, sumBytes, stateList,
      kSoleusStateLength]
    simp
    omega
  · simp [validChecksum, getRaw, checksumS, calcChecksum, sumBytes,
      stateList, kSoleusStateLength, Nat.mod_mod_of_dvd]

/-- C9: immediately after `stateReset()` the buffer is exactly
`{0x00,...,0x6A,0x00,0x2A,0xA5}`; its checksum is invalid, because the
stored last byte 0xA5 differs from the 8-bit sum 0x94 of the first ten
bytes, and it only becomes valid once `getRaw()` recomputes it. -/
theorem stateReset_bytes_and_invalid_checksum :
    stateList stateResetState =
      [0x00, 0x00, 0x00, 0x00, 0x00, 0x00, 0x00, 0x6A, 0x00, 0x2A, 0xA5] ∧
    validChecksum (stateList stateResetState) kSoleusStateLength = false ∧
    calcChecksum (stateList stateResetState) kSoleusStateLength = 0x94 ∧
    getRaw stateResetState =
      [0x00, 0x00, 0x00, 0x00, 0x00, 0x00, 0x00, 0x6A, 0x00, 0x2A, 0x94] ∧
    validChecksum (getRaw stateResetState) kSoleusStateLength = true := by
  decide

/-- C5: after `setMode(DRY)` the fan field reads LOW regardless of the
prior state, and any `setFan(AUTO/HIGH/MEDIUM)` issued while the mode
field is DRY leaves the fan field LOW. -/
theorem dry_mode_forces_fan_low :
    (∀ s : SoleusState, getFan (setMode s kSoleusDry) = kSoleusFanLow) ∧
    (∀ (s : SoleusState) (v : Nat), getMode s = kSoleusDry →
      v = kSoleusFanAuto ∨ v = kSoleusFanHigh ∨ v = kSoleusFanMed →
      getFan (setFan s v) = kSoleusFanLow) := by
  constructor
  · intro s
    unfold setMode
    rw [if_pos rfl]
    have h7 : getFan (setModeStore (setFan s kSoleusFanLow) kSoleusDry) =
        getFan (setFan s kSoleusFanLow) := by
      unfold getFan setModeStore
      rw [setButton_b7]
    rw [h7]
    unfold setFan
    rw [if_neg (by decide), if_pos rfl, getFan_setFanStore]
    decide
  · intro s v hm hv
    unfold setFan
    rw [if_pos hv, if_pos hm, getFan_setFanStore]
    decide

/-- C5 witness: a concrete dry-mode state keeps its fan LOW after
`setFan(AUTO)`. -/
theorem dry_mode_forces_fan_low_witness :
    getFan (setFan (setMode stateResetState kSoleusDry) kSoleusFanAuto) =
      kSoleusFanLow :=
  dry_mode_forces_fan_low.2 (setMode stateResetState kSoleusDry)
    kSoleusFanAuto (by decide) (Or.inl rfl)

/-- Reading the temperature field after overwriting it. -/
lemma getTemp_setBits (s1 : SoleusState) (v : Nat) (hv : v < 2 ^ 5) :
    getTemp { s1 with
        b9 := setBits s1.b9 kSoleusTempOffset kSoleusTempSize v } =
      v + kSoleusMinTemp := by
  show GETBITS8 (setBits s1.b9 kSoleusTempOffset kSoleusTempSize v)
      kSoleusTempOffset kSoleusTempSize + kSoleusMinTemp = v + kSoleusMinTemp
  rw [getBits_setBits _ _ _ _ (by decide)]
  show (v &&& (2 ^ 5 - 1)) + kSoleusMinTemp = v + kSoleusMinTemp
  rw [Nat.and_pow_two_sub_one_of_lt_two_pow hv]

/-- C6: `setTemp(t)` stores the clamp of `t` to [16, 32], records the
temp-up button if the clamped value exceeds the previous temperature, the
temp-down button if it is below, and leaves the button field unchanged
when equal. -/
theorem setTemp_clamps_and_records_button (s : SoleusState) (t : Nat)
    (ht : t ≤ 255) :
    getTemp (setTemp s t) = max 16 (min 32 t) ∧
    (getTemp s < max 16 (min 32 t) →
      getButton (setTemp s t) = kSoleusButtonTempUp) ∧
    (max 16 (min 32 t) < getTemp s →
      getButton (setTemp s t) = kSoleusButtonTempDown) ∧
    (max 16 (min 32 t) = getTemp s → getButton (setTemp s t) = getButton s) := by
  have hv : min kSoleusMaxTemp (max kSoleusMinTemp t) - kSoleusMinTemp <
      2 ^ 5 := by
    simp only [kSoleusMaxTemp, kSoleusMinTemp]
    omega
  refine ⟨?_, ?_, ?_, ?_⟩
  · simp only [setTemp]
    rw [getTemp_setBits _ _ hv]
    simp only [kSoleusMaxTemp, kSoleusMinTemp]
    omega
  · intro h
    have hc1 : ¬ (getTemp s > min kSoleusMaxTemp (max kSoleusMinTemp t)) := by
      simp only [kSoleusMaxTemp, kSoleusMinTemp] at *
      omega
    have hc2 : min kSoleusMaxTemp (max kSoleusMinTemp t) > getTemp s := by
      simp only [kSoleusMaxTemp, kSoleusMinTemp] at *
      omega
    simp only [setTemp]
    rw [if_neg hc1, if_pos hc2]
    show getButton (setButton s kSoleusButtonTempUp) = kSoleusButtonTempUp
    exact getButton_setButton s _ (by decide)
  · intro h
    have hc1 : getTemp s > min kSoleusMaxTemp (max kSoleusMinTemp t) := by
      simp only [kSoleusMaxTemp, kSoleusMinTemp] at *
      omega
    simp only [setTemp]
    rw [if_pos hc1]
    show getButton (setButton s kSoleusButtonTempDown) = kSoleusButtonTempDown
    exact getButton_setButton s _ (by decide)
  · intro h
    have hc1 : ¬ (getTemp s > min kSoleusMaxTemp (max kSoleusMinTemp t)) := by
      simp only [kSoleusMaxTemp, kSoleusMinTemp] at *
      omega
    have hc2 : ¬ (min kSoleusMaxTemp (max kSoleusMinTemp t) > getTemp s) := by
      simp only [kSoleusMaxTemp, kSoleusMinTemp] at *
      omega
    simp only [setTemp]
    rw [if_neg hc1, if_neg hc2]
    rfl

/-- C6 witness: `setTemp(5)` on the reset state clamps to 16. -/
theorem setTemp_clamps_witness :
    getTemp (setTemp stateResetState 5) = max 16 (min 32 5) :=
  (setTemp_clamps_and_records_button stateResetState 5 (by decide)).1

/-- C7 counterexample: with the mode field at DRY, `setFan(0xFF)` leaves
the fan at LOW, not AUTO, refuting the claim that every out-of-range fan
value results in `getFan() == AUTO`. -/
theorem invalid_fan_in_dry_mode_reads_low :
    getFan (setFan (setMode stateResetState kSoleusDry) 0xFF) =
      kSoleusFanLow ∧ kSoleusFanLow ≠ kSoleusFanAuto := by
  decide

/-- C7 (amended): an unrecognized mode falls back to AUTO, an
unrecognized button code falls back to POWER, and a fan value above LOW
falls back to AUTO unless the mode field is DRY, in which case the fan
reads LOW. -/
theorem invalid_values_fall_back_to_defaults :
    (∀ (s : SoleusState) (m : Nat), m ≤ 255 →
      ¬(m = kSoleusAuto ∨ m = kSoleusCool ∨ m = kSoleusDry ∨
        m = kSoleusFan ∨ m = kSoleusHeat) →
      getMode (setMode s m) = kSoleusAuto) ∧
    (∀ (s : SoleusState) (f : Nat), f ≤ 255 → kSoleusFanLow < f →
      getFan (setFan s f) =
        if getMode s = kSoleusDry then kSoleusFanLow else kSoleusFanAuto) ∧
    (∀ (s : SoleusState) (b : Nat), b ≤ 255 → b ∉ soleusButtons →
      getButton (setButton s b) = kSoleusButtonPower) := by
  refine ⟨?_, ?_, ?_⟩
  · intro s m _ hm
    unfold setMode
    rw [if_neg (fun h => hm (Or.inr (Or.inr (Or.inl h)))),
      if_neg (fun h => hm (by tauto)), getMode_setModeStore]
    decide
  · intro s f _ hf
    have hf3 : (3 : Nat) < f := hf
    have h1 : ¬(f = kSoleusFanAuto ∨ f = kSoleusFanHigh ∨ f = kSoleusFanMed) := by
      simp only [kSoleusFanAuto, kSoleusFanHigh, kSoleusFanMed]
      omega
    have h2 : ¬ f = kSoleusFanLow := by
      simp only [kSoleusFanLow]
      omega
    unfold setFan
    rw [if_neg h1, if_neg h2]
    by_cases hd : getMode s = kSoleusDry
    · rw [if_pos hd, if_pos hd, getFan_setFanStore]
      decide
    · rw [if_neg hd, if_neg hd, getFan_setFanStore]
      decide
  · intro s b _ hb
    unfold setButton
    rw [if_neg hb]
    show GETBITS8 (setBits s.b5 kSoleusButtonOffset kSoleusButtonSize
        kSoleusButtonPower) kSoleusButtonOffset kSoleusButtonSize =
      kSoleusButtonPower
    rw [getBits_setBits _ _ _ _ (by decide)]
    decide

/-- C7 witness: `setMode(7)` (an unrecognized mode) reads back AUTO. -/
theorem invalid_values_fall_back_witness :
    getMode (setMode stateResetState 7) = kSoleusAuto :=
  invalid_values_fall_back_to_defaults.1 stateResetState 7 (by decide)
    (by decide)

/-- C10: `getFollow()` returns true exactly when byte 8 has all the bits
of the sentinel 0x5D set; in particular it is true for 0x5D, 0x5F, 0xDD
and 0xFF, and false for a byte missing one of those bits, such as 0x5C. -/
theorem getFollow_mask_semantics :
    (∀ s : SoleusState, getFollow s = true ↔
      ∀ i, i < 8 → kSoleusFollowMe.testBit i = true → s.b8.testBit i = true) ∧
    getFollow { stateResetState with b8 := 0x5D } = true ∧
    getFollow { stateResetState with b8 := 0x5F } = true ∧
    getFollow { stateResetState with b8 := 0xDD } = true ∧
    getFollow { stateResetState with b8 := 0xFF } = true ∧
    getFollow { stateResetState with b8 := 0x5C } = false := by
  refine ⟨?_, by decide, by decide, by decide, by decide, by decide⟩
  intro s
  unfold getFollow
  rw [decide_eq_true_eq]
  constructor
  · intro h i hi hbit
    have hbits := congrArg (fun n => n.testBit i) h
    simp only [Nat.testBit_land, Nat.testBit_mod_two_pow] at hbits
    rw [hbit] at hbits
    simp [hi] at hbits
    exact hbits
  · intro h
    apply Nat.eq_of_testBit_eq
    intro i
    simp only [Nat.testBit_land, Nat.testBit_mod_two_pow]
    by_cases hi : i < 8
    · by_cases hbit : kSoleusFollowMe.testBit i = true
      · simp [hi, hbit, h i hi hbit]
      · simp [hbit]
    · have hbit : kSoleusFollowMe.testBit i = false := by
        apply Nat.testBit_lt_two_pow
        calc kSoleusFollowMe < 2 ^ 8 := by decide
          _ ≤ 2 ^ i := Nat.pow_le_pow_right (by decide) (by omega)
      simp [hbit, hi]

/-- C10 witness: byte 8 equal to 0xDD (all bits of 0x5D set, plus bit 7)
reads as follow-me active. -/
theorem getFollow_mask_semantics_witness :
    getFollow { stateResetState with b8 := 0xDD } = true :=
  (getFollow_mask_semantics.1 { stateResetState with b8 := 0xDD }).mpr
    (by decide)

/-! ## Helper lemmas about the pulse codec -/

/-- The data section of a Soleus message, regrouped: serializing the
bytes bit-group by bit-group equals serializing the flattened bit
stream. -/
lemma data_section_regroup (data : List Nat) :
    (data.flatMap fun b => (byteBits b).flatMap soleusBitPulses) =
      (data.flatMap byteBits).flatMap soleusBitPulses := by
  induction data with
  | nil => simp
  | cons d ds ih => simp [List.flatMap_append, ih]

/-- The per-bit pulse pair of the generic serializer, instantiated with
the Soleus timings, is `soleusBitPulses`. -/
lemma bitPulses_eq :
    (fun bit =>
      [Pulse.mark (if bit then kSoleusBitMark else kSoleusBitMark),
       Pulse.space (if bit then kSoleusOneSpace else kSoleusZeroSpace)]) =
      soleusBitPulses := by
  funext bit
  cases bit <;> rfl

/-- The normal form of one full message. -/
lemma soleusMessage_eq (data : List Nat) :
    soleusMessage data =
      Pulse.mark kSoleusHdrMark :: Pulse.space kSoleusHdrSpace ::
      ((data.flatMap byteBits).flatMap soleusBitPulses ++
       [Pulse.mark kSoleusBitMark, Pulse.space kSoleusHdrSpace,
        Pulse.mark kSoleusBitMark, Pulse.space kSoleusMinGap]) := by
  unfold soleusMessage sendGeneric
  simp only [bitPulses_eq, data_section_regroup, List.cons_append,
    List.nil_append, List.append_assoc]

/-- The matcher reads back each serialized bit stream verbatim. -/
lemma readBits_encoded (bits : List Bool) (rest : List Pulse) :
    readBits bits.length (bits.flatMap soleusBitPulses ++ rest) =
      some (bits, rest) := by
  induction bits with
  | nil => simp [readBits]
  | cons b bs ih =>
    cases b <;>
      simp [readBits, readBit, soleusBitPulses, matchTick, kTolerance,
        kSoleusBitMark, kSoleusOneSpace, kSoleusZeroSpace, ih]

set_option maxRecDepth 4096 in
/-- Reassembling the most-significant-bit-first bit pattern of a byte
recovers the byte. -/
lemma byteOfBits_byteBits : ∀ b < 256, byteOfBits (byteBits b) = b := by
  decide

/-- `bitsToBytes` peels one byte worth of bits at a time. -/
lemma bitsToBytes_byteBits (b : Nat) (hb : b < 256) (rest : List Bool) :
    bitsToBytes (byteBits b ++ rest) = b :: bitsToBytes rest := by
  have h := byteOfBits_byteBits b hb
  simp only [byteBits, List.cons_append, List.nil_append, bitsToBytes]
  rw [show [b.testBit 7, b.testBit 6, b.testBit 5, b.testBit 4, b.testBit 3,
      b.testBit 2, b.testBit 1, b.testBit 0] = byteBits b from rfl, h]
  simp

/-- `bitsToBytes` inverts the byte-to-bits serialization. -/
lemma bitsToBytes_flatMap (data : List Nat) (h : ∀ b ∈ data, b < 256) :
    bitsToBytes (data.flatMap byteBits) = data := by
  induction data with
  | nil => simp [bitsToBytes]
  | cons d ds ih =>
    rw [List.flatMap_cons, bitsToBytes_byteBits d (h d (by simp)),
      ih fun b hb => h b (by simp [hb])]

/-- Eight bits per byte. -/
lemma length_flatMap_byteBits (data : List Nat) :
    (data.flatMap byteBits).length = 8 * data.length := by
  induction data with
  | nil => simp
  | cons d ds ih =>
    simp only [List.flatMap_cons, List.length_append, ih, byteBits,
      List.length_cons]
    simp
    omega

/-- Two pulses per bit. -/
lemma length_flatMap_bitPulses (bits : List Bool) :
    (bits.flatMap soleusBitPulses).length = 2 * bits.length := by
  induction bits with
  | nil => simp
  | cons b bs ih => simp [soleusBitPulses, ih]; omega

/-- The generic matcher accepts a well-formed message and returns its
bytes together with the extra-footer pulses. -/
lemma matchGenericSoleus_message (data : List Nat) (hlen : data.length = 11)
    (hbytes : ∀ b ∈ data, b < 256) :
    matchGenericSoleus (soleusMessage data) kSoleusBits =
      some (data, [Pulse.mark kSoleusBitMark, Pulse.space kSoleusMinGap]) := by
  have hbits : (data.flatMap byteBits).length = kSoleusBits := by
    rw [length_flatMap_byteBits, hlen]
    decide
  rw [soleusMessage_eq]
  show (if (matchTick kSoleusHdrMark kSoleusHdrMark &&
        matchTick kSoleusHdrSpace kSoleusHdrSpace) = true then
      match readBits kSoleusBits
          ((data.flatMap byteBits).flatMap soleusBitPulses ++
           [Pulse.mark kSoleusBitMark, Pulse.space kSoleusHdrSpace,
            Pulse.mark kSoleusBitMark, Pulse.space kSoleusMinGap]) with
      | none => none
      | some (bits, ps1) =>
        match readFooter ps1 with
        | none => none
        | some ps2 => some (bitsToBytes bits, ps2)
    else none) =
    some (data, [Pulse.mark kSoleusBitMark, Pulse.space kSoleusMinGap])
  rw [if_pos (by decide), ← hbits, readBits_encoded]
  show (match readFooter [Pulse.mark kSoleusBitMark,
      Pulse.space kSoleusHdrSpace, Pulse.mark kSoleusBitMark,
      Pulse.space kSoleusMinGap] with
    | none => none
    | some ps2 => some (bitsToBytes (data.flatMap byteBits), ps2)) =
    some (data, [Pulse.mark kSoleusBitMark, Pulse.space kSoleusMinGap])
  rw [show readFooter [Pulse.mark kSoleusBitMark,
      Pulse.space kSoleusHdrSpace, Pulse.mark kSoleusBitMark,
      Pulse.space kSoleusMinGap] =
      some [Pulse.mark kSoleusBitMark, Pulse.space kSoleusMinGap] from
      by decide]
  show some (bitsToBytes (data.flatMap byteBits),
      [Pulse.mark kSoleusBitMark, Pulse.space kSoleusMinGap]) =
    some (data, [Pulse.mark kSoleusBitMark, Pulse.space kSoleusMinGap])
  rw [bitsToBytes_flatMap data hbytes]

end Soleus

namespace Soleus

/-! ## Claim theorems: the pulse codec -/

/-- C1 counterexample: an 11-byte buffer whose last byte is not the 8-bit
sum of the first ten fails the strict encode/decode round trip, so the
round trip does not hold for every 11-byte state buffer. -/
theorem roundtrip_fails_on_bad_checksum :
    ([1, 0, 0, 0, 0, 0, 0, 0, 0, 0, 0] : List Nat).length = 11 ∧
    decodeSoleus (sendSoleus [1, 0, 0, 0, 0, 0, 0, 0, 0, 0, 0] 0) 0 88 true ≠
      some [1, 0, 0, 0, 0, 0, 0, 0, 0, 0, 0] := by
  decide

/-- C1 (amended): for every 11-byte state buffer whose checksum byte is
valid, encoding with `sendSoleus` and decoding with `decodeSoleus`
(strict, 88 bits) succeeds and yields exactly the same buffer. -/
theorem decode_encode_roundtrip (state : List Nat)
    (hlen : state.length = 11) (hbytes : ∀ b ∈ state, b < 256)
    (hsum : validChecksum state kSoleusStateLength = true) :
    decodeSoleus (sendSoleus state 0) 0 kSoleusBits true = some state := by
  have hchk : validChecksum state (kSoleusBits / 8) = true := hsum
  unfold decodeSoleus
  rw [if_neg (by simp), List.drop_zero,
    show sendSoleus state 0 = soleusMessage state from rfl,
    matchGenericSoleus_message state hlen hbytes]
  show (if matchExtraFooter
      [Pulse.mark kSoleusBitMark, Pulse.space kSoleusMinGap] then
    if (true : Bool) ∧ validChecksum state (kSoleusBits / 8) = false then none
    else some state
  else none) = some state
  rw [if_pos (by decide), if_neg (fun h => by simp [hchk] at h)]

/-- C1 witness: the canonical reset pattern with its checksum fixed up
round-trips through encode and strict decode. -/
theorem decode_encode_roundtrip_witness :
    decodeSoleus
      (sendSoleus [0, 0, 0, 0, 0, 0, 0, 0x6A, 0, 0x2A, 0x94] 0) 0
      kSoleusBits true = some [0, 0, 0, 0, 0, 0, 0, 0x6A, 0, 0x2A, 0x94] :=
  decode_encode_roundtrip [0, 0, 0, 0, 0, 0, 0, 0x6A, 0, 0x2A, 0x94]
    (by decide) (by decide) (by decide)

/-- C4: strict decode fails whenever the requested bit count differs from
88; every strict decode success has a valid checksum; and the same pulse
sequence whose data carries a corrupted checksum byte (here the reset
pattern, whose last byte 0xA5 is not the sum 0x94) still decodes with
strict=false, while failing with strict=true. -/
theorem decode_strict_checks :
    (∀ (raw : List Pulse) (off n : Nat), n ≠ kSoleusBits →
      decodeSoleus raw off n true = none) ∧
    (∀ (raw : List Pulse) (off : Nat) (st : List Nat),
      decodeSoleus raw off kSoleusBits true = some st →
      validChecksum st (kSoleusBits / 8) = true) ∧
    decodeSoleus (sendSoleus [0, 0, 0, 0, 0, 0, 0, 0x6A, 0, 0x2A, 0xA5] 0)
      0 kSoleusBits false = some [0, 0, 0, 0, 0, 0, 0, 0x6A, 0, 0x2A, 0xA5] ∧
    validChecksum [0, 0, 0, 0, 0, 0, 0, 0x6A, 0, 0x2A, 0xA5]
      (kSoleusBits / 8) = false ∧
    decodeSoleus (sendSoleus [0, 0, 0, 0, 0, 0, 0, 0x6A, 0, 0x2A, 0xA5] 0)
      0 kSoleusBits true = none := by
  refine ⟨?_, ?_, by decide, by decide, by decide⟩
  · intro raw off n hn
    unfold decodeSoleus
    rw [if_pos ⟨rfl, hn⟩]
  · intro raw off st h
    unfold decodeSoleus at h
    rw [if_neg (by simp)] at h
    rcases hm : matchGenericSoleus (raw.drop off) kSoleusBits with _ | ⟨st1, ps1⟩ <;>
      rw [hm] at h
    · simp at h
    · have h2 : (if matchExtraFooter ps1 then
          if (true : Bool) ∧ validChecksum st1 (kSoleusBits / 8) = false
          then none else some st1
        else none) = some st := h
      by_cases hef : matchExtraFooter ps1 = true
      · rw [if_pos hef] at h2
        by_cases hc : validChecksum st1 (kSoleusBits / 8) = false
        · rw [if_pos ⟨rfl, hc⟩] at h2
          exact absurd h2 (by simp)
        · rw [if_neg (fun hcontra => hc hcontra.2)] at h2
          obtain rfl : st1 = st := Option.some.inj h2
          exact eq_true_of_ne_false hc
      · rw [if_neg hef] at h2
        exact absurd h2 (by simp)

/-- C4 witness: strict decode of an empty capture with a wrong bit count
fails. -/
theorem decode_strict_checks_witness :
    decodeSoleus [] 0 87 true = none :=
  decode_strict_checks.1 [] 0 87 (by decide)

/-- C3: each byte of the buffer is serialized most-significant-bit first:
within every message the data section presents, for each byte, bits 7
down to 0, each as a short mark followed by the one-space or the
zero-space according to the bit value. -/
theorem send_serializes_msb_first (data : List Nat) :
    sendSoleus data 0 =
      [Pulse.mark kSoleusHdrMark, Pulse.space kSoleusHdrSpace] ++
      (data.flatMap fun b =>
        (List.range 8).flatMap fun i =>
          [Pulse.mark kSoleusBitMark,
           Pulse.space (if b.testBit (7 - i) then kSoleusOneSpace
                        else kSoleusZeroSpace)]) ++
      [Pulse.mark kSoleusBitMark, Pulse.space kSoleusHdrSpace,
       Pulse.mark kSoleusBitMark, Pulse.space kSoleusMinGap] := by
  have hrange : List.range 8 = [0, 1, 2, 3, 4, 5, 6, 7] := rfl
  rw [show sendSoleus data 0 = soleusMessage data from rfl]
  unfold soleusMessage sendGeneric
  simp only [hrange, byteBits, List.flatMap_cons, List.flatMap_nil,
    List.cons_append, List.nil_append, List.append_assoc, List.append_nil,
    ite_self]

/-- One message is 16 pulses per byte plus six framing pulses long. -/
lemma soleusMessage_length (data : List Nat) :
    (soleusMessage data).length = 16 * data.length + 6 := by
  rw [soleusMessage_eq]
  simp only [List.length_cons, List.length_append, length_flatMap_bitPulses,
    length_flatMap_byteBits, List.length_nil]
  omega

/-- Flattening one more replicated copy appends it at the end. -/
lemma flatten_replicate_succ (n : Nat) (xs : List Pulse) :
    (List.replicate (n + 1) xs).flatten =
      (List.replicate n xs).flatten ++ xs := by
  rw [List.replicate_succ', List.flatten_append]
  simp

/-- C8: `sendSoleus` with repeat count `r` emits exactly `r + 1` copies
of the complete message, each consisting of the generic
header + data + footer stream followed by the extra trailing bit mark and
the minimum inter-message gap. -/
theorem send_repeats_messages (data : List Nat) (r : Nat) :
    sendSoleus data r = (List.replicate (r + 1) (soleusMessage data)).flatten ∧
    soleusMessage data =
      sendGeneric kSoleusHdrMark kSoleusHdrSpace kSoleusBitMark
        kSoleusOneSpace kSoleusBitMark kSoleusZeroSpace kSoleusBitMark
        kSoleusHdrSpace data ++
      [Pulse.mark kSoleusBitMark, Pulse.space kSoleusMinGap] ∧
    (sendSoleus data r).length = (r + 1) * (16 * data.length + 6) := by
  have hrep : ∀ n, sendSoleus data n =
      (List.replicate (n + 1) (soleusMessage data)).flatten := by
    intro n
    induction n with
    | zero => simp [sendSoleus]
    | succ m ih =>
      show sendSoleus data m ++ soleusMessage data = _
      rw [ih]
      exact (flatten_replicate_succ (m + 1) (soleusMessage data)).symm
  have hlen : ∀ n, (sendSoleus data n).length =
      (n + 1) * (16 * data.length + 6) := by
    intro n
    induction n with
    | zero =>
      show (soleusMessage data).length = _
      rw [soleusMessage_length]
      ring
    | succ m ih =>
      show (sendSoleus data m ++ soleusMessage data).length = _
      rw [List.length_append, ih, soleusMessage_length]
      ring
  exact ⟨hrep r, rfl, hlen r⟩

end Soleus
